import Mathlib

/-!
Verification of the yt_downldr service (`src/main.py`): a FastAPI app that
downloads a video with pytubefix (Strategy A), falls back to yt-dlp
(Strategy B), and serves the resulting files from a download root behind a
path-normalising guard (`_norm`).

The Python source is shallowly embedded: external effects (the downloader
libraries, `subprocess.run`, `os.listdir`, `os.path.exists`) become explicit
parameters; JSON values become an inductive type; Python exceptions become
`Except` with a `(kind, message)` payload.
-/

namespace YtDownldr

/-- A Python exception surfaced by the service: `type(e).__name__` and `str(e)`. -/
structure PyExc where
  kind : String
  msg : String
deriving DecidableEq, Repr

/-- A JSON value, the payloads FastAPI hands to the handlers and the bodies they return. -/
inductive JVal where
  | null : JVal
  | bool (b : Bool) : JVal
  | num (n : Int) : JVal
  | str (s : String) : JVal
  | arr (xs : List JVal) : JVal
  | obj (fields : List (String × JVal)) : JVal

/-- Python truthiness (`bool(v)`) on a JSON-decoded value. -/
def JVal.truthy : JVal → Bool
  | .null => false
  | .bool b => b
  | .num n => n ≠ 0
  | .str s => s ≠ ""
  | .arr xs => ¬ xs.isEmpty
  | .obj fs => ¬ fs.isEmpty

/-- Python `type(v).__name__` for a JSON-decoded value. -/
def JVal.typeName : JVal → String
  | .null => "NoneType"
  | .bool _ => "bool"
  | .num _ => "int"
  | .str _ => "str"
  | .arr _ => "list"
  | .obj _ => "dict"

/-- `dict.get(key)`: first binding wins, `None` when absent. -/
def JVal.get (v : JVal) (key : String) : JVal :=
  match v with
  | .obj fs =>
    match fs.find? (fun kv => kv.1 = key) with
    | some kv => kv.2
    | none => .null
  | _ => .null

/-- `key in dict`. -/
def JVal.hasKey (v : JVal) (key : String) : Bool :=
  match v with
  | .obj fs => fs.any (fun kv => kv.1 = key)
  | _ => false

/-! ## Python string primitives

The embedding needs `str.split("/")`, `str.strip()` and `str.startswith`;
they are implemented structurally over the character list so that every
definition evaluates inside the kernel. -/

/-- Python `s.split("/")`: empty pieces kept, `""` splits to `[""]`. -/
def splitOnSlash : List Char → List (List Char)
  | [] => [[]]
  | c :: rest =>
    if c = '/' then [] :: splitOnSlash rest
    else
      match splitOnSlash rest with
      | [] => [[c]]
      | g :: gs => (c :: g) :: gs

/-- Python `s.startswith(pre)`. -/
def pyStartsWith (s pre : String) : Bool := pre.data.isPrefixOf s.data

/-- The characters Python's `str.strip()` removes. -/
def isPySpace (c : Char) : Bool :=
  c = ' ' ∨ c = '\t' ∨ c = '\n' ∨ c = '\r' ∨ c = '\x0b' ∨ c = '\x0c'

/-- Python `s.strip()`. -/
def pyStrip (s : String) : String :=
  ⟨((s.data.dropWhile isPySpace).reverse.dropWhile isPySpace).reverse⟩

/-- `"/".join`-style reassembly used by `normpath`. -/
def joinSlash : List String → String
  | [] => ""
  | [x] => x
  | x :: xs => x ++ "/" ++ joinSlash xs

/-! ## Path model: `os.path` on POSIX

`_norm` always works on a path that starts with a slash (it prepends one),
so `os.path.abspath` coincides with `posixpath.normpath`.  We embed
`normpath` for absolute inputs: split on the separator, drop empty and `.`
components, resolve `..` against the stack (it vanishes at the root), and
keep the double-slash root exactly when the path starts with exactly two
slashes, as CPython does. -/

/-- One step of `posixpath.normpath`'s component loop, for an absolute path
(where a `..` with an empty stack is dropped, never kept). -/
def normStep (acc : List String) (c : String) : List String :=
  if c = "" ∨ c = "." then acc
  else if c = ".." then acc.dropLast
  else acc ++ [c]

/-- `posixpath.normpath p` for `p` starting with `/`. -/
def normpathAbs (p : String) : String :=
  let comps := ((splitOnSlash p.data).map (fun g => (⟨g⟩ : String))).foldl normStep []
  let pre := if pyStartsWith p "//" ∧ ¬ pyStartsWith p "///" then "//" else "/"
  if comps = [] then pre else pre ++ joinSlash comps

/-- `os.path.abspath p` for an absolute `p` (no cwd involved): `normpath`. -/
def abspathAbs (p : String) : String := normpathAbs p

/-- `os.path.join dir f` when `dir` has no trailing slash and `f` is relative. -/
def pathJoin (dir f : String) : String := dir ++ "/" ++ f

/-- `os.path.basename p`: everything after the last slash. -/
def basename (p : String) : String :=
  match (splitOnSlash p.data).getLast? with
  | some s => ⟨s⟩
  | none => p

/-- The download root: `/data/youtube_downloads` when `/data` is a directory,
else `/tmp/youtube_downloads` (`root`/`DOWNLOAD_DIR` in the source). -/
def DOWNLOAD_DIR (dataIsDir : Bool) : String :=
  pathJoin (if dataIsDir then "/data" else "/tmp") "youtube_downloads"

/-! ## The Path Resolver `_norm` -/

/-- An `HTTPException(status_code, detail)`. -/
structure HTTPError where
  status : Nat
  detail : String
deriving DecidableEq, Repr

/-- `_norm` from the source: empty fragment is a 400, a slash is prepended when
missing, `os.path.abspath` is applied, a path whose string does not start with
the root's `abspath` is a 403, a path the filesystem lacks is a 404, otherwise
the absolute path is returned.  The filesystem is the `fsExists` oracle
(`os.path.exists`).  `normTarget` is the absolute path `_norm` computes
before its checks: slash prepended when missing, then `os.path.abspath`. -/
def normTarget (p : String) : String :=
  abspathAbs (if pyStartsWith p "/" then p else "/" ++ p)

def norm (downloadDir : String) (fsExists : String → Bool) (p : String) :
    Except HTTPError String :=
  if p = "" then .error ⟨400, "Missing file path"⟩
  else
    let ap := normTarget p
    if ¬ pyStartsWith ap (abspathAbs downloadDir) then .error ⟨403, "Forbidden path"⟩
    else if ¬ fsExists ap then .error ⟨404, "File not found"⟩
    else .ok ap

/-! ## Percent-encoding: `urllib.parse.quote`

`quote` UTF-8-encodes the string and percent-encodes every byte outside the
always-safe set (ASCII letters, digits, `_.-~`) and the default `safe='/'`,
using uppercase hex. -/

/-- UTF-8 encoding of one code point, as CPython's `str.encode` produces it. -/
def utf8EncodeCh (c : Char) : List Nat :=
  let v := c.toNat
  if v < 0x80 then [v]
  else if v < 0x800 then [0xC0 + v / 64, 0x80 + v % 64]
  else if v < 0x10000 then [0xE0 + v / 4096, 0x80 + v / 64 % 64, 0x80 + v % 64]
  else [0xF0 + v / 0x40000, 0x80 + v / 4096 % 64, 0x80 + v / 64 % 64, 0x80 + v % 64]

/-- `s.encode("utf-8")` as a byte list. -/
def utf8Encode (s : String) : List Nat := s.data.flatMap utf8EncodeCh

/-- `quote`'s unreserved set plus its default `safe='/'`: bytes never escaped. -/
def safeByte (b : Nat) : Bool :=
  (48 ≤ b ∧ b ≤ 57) ∨ (65 ≤ b ∧ b ≤ 90) ∨ (97 ≤ b ∧ b ≤ 122) ∨
    b = 95 ∨ b = 46 ∨ b = 45 ∨ b = 126 ∨ b = 47

/-- Uppercase hex digit for `n < 16`. -/
def hexDigitCh (n : Nat) : Char :=
  if n < 10 then Char.ofNat (48 + n) else Char.ofNat (55 + n)

/-- Percent-encode a byte list (`urllib.parse.quote` after UTF-8 encoding). -/
def quoteBytes : List Nat → List Char
  | [] => []
  | b :: bs =>
    (if safeByte b then [Char.ofNat b]
     else ['%', hexDigitCh (b / 16), hexDigitCh (b % 16)]) ++ quoteBytes bs

/-- `urllib.parse.quote s` with the default `safe='/'`. -/
def pyQuote (s : String) : String := ⟨quoteBytes (utf8Encode s)⟩

/-- `rel_file` from the source: the absolute path, percent-encoded, behind `/file=`. -/
def rel_file (absPath : String) : String := "/file=" ++ pyQuote absPath

/-! ## Strategy A: `download_with_pytube`

The pytubefix library is an external collaborator (its code is not in the
repository), so its query results are modelled: a `Stream` carries the
attributes the source reads (`is_progressive`, the container, `resolution`)
plus the path its `download(output_path=DOWNLOAD_DIR)` call returns, and a
`YT` object carries the list behind `yt.streams`, the opaque result of
`get_highest_resolution()`, and `yt.title`. -/

structure Stream where
  is_progressive : Bool
  file_extension : String
  resolution : Option Nat
  downloadPath : String

structure YT where
  streams : List Stream
  highest : Option Stream
  title : String

/-- Modelled from the spec: `streams.filter(progressive=True, file_extension="mp4")`
of the external library keeps streams restricted to the MP4 container carrying
both audio and video. -/
def filterProgressiveMp4 (l : List Stream) : List Stream :=
  l.filter fun s => s.is_progressive ∧ s.file_extension = "mp4"

/-- The sort key behind `order_by("resolution")` for streams that have one. -/
def resKey (s : Stream) : Nat := s.resolution.getD 0

/-- Insert into a list sorted by descending resolution. -/
def insertDescByRes (s : Stream) : List Stream → List Stream
  | [] => [s]
  | t :: ts => if resKey t < resKey s then s :: t :: ts else t :: insertDescByRes s ts

/-- Modelled from the spec: `order_by("resolution").desc()` of the external
library drops streams without a resolution and sorts the rest by resolution,
highest first. -/
def orderByResolutionDesc (l : List Stream) : List Stream :=
  (l.filter fun s => s.resolution.isSome).foldr insertDescByRes []

/-- `download_with_pytube` from the source: take `get_highest_resolution()`;
when it is missing or not progressive, re-query progressive MP4 streams by
descending resolution and take the first; fail with the no-stream error when
nothing is found; otherwise download and pair the absolute path with
`yt.title or basename`. -/
def download_with_pytube (yt : YT) : Except PyExc (String × String) :=
  let requery := (orderByResolutionDesc (filterProgressiveMp4 yt.streams)).head?
  let stream :=
    match yt.highest with
    | some s => if s.is_progressive then some s else requery
    | none => requery
  match stream with
  | none => .error ⟨"RuntimeError", "No progressive MP4 stream found."⟩
  | some s =>
    let fp := s.downloadPath
    let title := if yt.title ≠ "" then yt.title else basename fp
    .ok (abspathAbs fp, title)

/-! ## Strategy B: `download_with_ytdlp`

`subprocess.run` and `os.listdir` are external effects, so the model takes the
process result (`returncode`, captured interleaved output) and the download
directory's listing (name and mtime per entry) as inputs. -/

structure FileEntry where
  name : String
  mtime : Nat
deriving DecidableEq, Repr

/-- One comparison step of Python's `max` with the mtime key: a later entry
replaces the current best only when strictly newer, so the first of tied
maxima wins, as in CPython. -/
def newerOf (best y : FileEntry) : FileEntry :=
  if best.mtime < y.mtime then y else best

/-- Python's `max` with a key: the first element of maximal key;
the empty case is the `ValueError` that `max` raises. -/
def maxByMtime : List FileEntry → Option FileEntry
  | [] => none
  | x :: xs => some (xs.foldl newerOf x)

/-- `s[-1000:]`: the last 1000 characters (the whole string when shorter). -/
def tailSlice1000 (s : String) : String := ⟨s.data.drop (s.data.length - 1000)⟩

/-- `os.path.splitext(f)[0]` for a slash-free name: cut at the last dot unless
every character before it is a dot. -/
def splitextRoot (f : String) : String :=
  let cs := f.data
  match ((List.range cs.length).filter fun i => cs.get? i = some '.').getLast? with
  | none => f
  | some i => if (cs.take i).all (fun c => c = '.') then f else ⟨cs.take i⟩

/-- `download_with_ytdlp` from the source: a non-zero exit raises the
`yt-dlp failed` error carrying the output's last 1000 characters; on exit zero
the newest file in the download directory is the result and its
extension-stripped name the title (an empty directory makes `max` raise). -/
def download_with_ytdlp (downloadDir : String) (returncode : Int) (stdout : String)
    (listing : List FileEntry) : Except PyExc (String × String) :=
  if returncode ≠ 0 then
    .error ⟨"RuntimeError", "yt-dlp failed:\n" ++ tailSlice1000 stdout⟩
  else
    match maxByMtime listing with
    | none => .error ⟨"ValueError", "max() arg is an empty sequence"⟩
    | some e =>
      let newest := pathJoin downloadDir e.name
      .ok (abspathAbs newest, splitextRoot (basename newest))

/-! ## The Fallback Orchestrator `_safe_download`

Each strategy's outcome for the requested URL is a value of
`Except PyExc (String × String)`; both `except` arms of the source call
Strategy B, so any error from A routes to B. `safe_download_calls` is the
invocation trace the control flow produces. -/

inductive Strategy where
  | A
  | B
deriving DecidableEq, Repr

def safe_download (resA resB : Except PyExc (String × String)) :
    Except PyExc (String × String) :=
  match resA with
  | .ok r => .ok r
  | .error _ => resB

/-- The strategies `_safe_download` invokes, in order: A always, then B exactly
when A raised (either `except` arm). -/
def safe_download_calls (resA : Except PyExc (String × String)) : List Strategy :=
  match resA with
  | .ok _ => [.A]
  | .error _ => [.A, .B]

/-! ## HTTP routes

A downloader `dl` stands for `_safe_download`; a route's result records the
status, the JSON body, and the URLs passed to `_safe_download` (the only
operations that write to the filesystem happen inside the strategies). -/

def Downloader := String → Except PyExc (String × String)

structure RouteResult where
  status : Nat
  body : JVal
  calls : List String

/-- The tail of `download_plain` after URL extraction: the shared
400 / download / 500 logic of `POST /download` and `GET /download`. -/
def plainTail (dl : Downloader) (statusMsg : String) (url : String) : RouteResult :=
  if url = "" then
    ⟨400, .obj [("error", .str "No URL provided")], []⟩
  else
    match dl url with
    | .ok (fp, title) =>
      ⟨200, .obj [("title", .str title), ("file", .str fp),
                  ("public_url", .str (rel_file fp)),
                  ("status", .str statusMsg)], [url]⟩
    | .error e =>
      ⟨500, .obj [("error", .str (e.kind ++ ": " ++ e.msg))], [url]⟩

/-- `POST /download`: `url = (payload.get("url") or "").strip()` — a truthy
non-string raises `AttributeError` at `.strip()`, caught by the outer handler
as a 500; a falsy value becomes the empty string and hits the 400 branch. -/
def download_plain (dl : Downloader) (payload : JVal) : RouteResult :=
  match payload.get "url" with
  | .str s => plainTail dl "Downloaded successfully" (pyStrip s)
  | other =>
    if other.truthy then
      ⟨500, .obj [("error", .str ("AttributeError: \x27" ++ other.typeName ++
                                  "\x27 object has no attribute \x27strip\x27"))], []⟩
    else plainTail dl "Downloaded successfully" ""

/-- `GET /download?url=...`: the query parameter is a string (default `""`). -/
def download_plain_get (dl : Downloader) (url : String) : RouteResult :=
  plainTail dl "Downloaded successfully (GET)" (pyStrip url)

/-- The gradio-route error body: `{"error": e, "data": [None, "Error: " + e]}`. -/
def gradioErrBody (e : String) : JVal :=
  .obj [("error", .str e), ("data", .arr [.null, .str ("Error: " ++ e)])]

/-- The gradio-route bad-payload body: note `data` is the empty list here. -/
def gradioBadBody : JVal :=
  .obj [("error", .str "Bad payload. Use \x7bdata:[<url>]\x7d or \x7burl:<url>\x7d"),
        ("data", .arr [])]

/-- The gradio-route success body: the `info` descriptor, the status string,
and the bare `/file=` reference. -/
def gradioOkBody (fp title : String) : JVal :=
  .obj [("data", .arr [.obj [("name", .str (basename fp)), ("path", .str fp),
                             ("url", .str (rel_file fp))],
                       .str ("Downloaded \x27" ++ title ++ "\x27 successfully!"),
                       .str (rel_file fp)])]

/-- The tail of `download_gradio` once a string URL is in hand. -/
def gradioTail (dl : Downloader) (url : String) : RouteResult :=
  if url = "" then
    ⟨400, gradioBadBody, []⟩
  else
    match dl url with
    | .ok (fp, title) => ⟨200, gradioOkBody fp title, [url]⟩
    | .error e => ⟨500, gradioErrBody (e.kind ++ ": " ++ e.msg), [url]⟩

/-- The URL value `download_gradio` extracts before `.strip()`: `data[0]` when
`data` is a non-empty list, else `url` when the first candidate is falsy and
the key exists. -/
def gradioUrlField (payload : JVal) : JVal :=
  let url0 : JVal :=
    match payload.get "data" with
    | .arr (x :: _) => x
    | _ => .null
  if ¬ url0.truthy ∧ payload.hasKey "url" then payload.get "url" else url0

/-- `POST /api/predict/download`: extract the URL value, then
`(url or "").strip()` as in the plain route. -/
def download_gradio (dl : Downloader) (payload : JVal) : RouteResult :=
  match gradioUrlField payload with
  | .str s => gradioTail dl (pyStrip s)
  | other =>
    if other.truthy then
      ⟨500, gradioErrBody ("AttributeError: \x27" ++ other.typeName ++
                           "\x27 object has no attribute \x27strip\x27"), []⟩
    else gradioTail dl ""

/-! ## File-serving routes -/

structure FileResp where
  path : String
  filename : String
  media_type : String
deriving DecidableEq, Repr

/-- `GET /file={abs_path:path}`. -/
def serve_file_legacy (downloadDir : String) (fsExists : String → Bool)
    (abs_path : String) : Except HTTPError FileResp :=
  match norm downloadDir fsExists abs_path with
  | .ok ap => .ok ⟨ap, basename ap, "application/octet-stream"⟩
  | .error e => .error e

/-- `GET /file/{abs_path:path}`. -/
def serve_file_alt (downloadDir : String) (fsExists : String → Bool)
    (abs_path : String) : Except HTTPError FileResp :=
  match norm downloadDir fsExists abs_path with
  | .ok ap => .ok ⟨ap, basename ap, "application/octet-stream"⟩
  | .error e => .error e

/-! ## Percent-decoding: `urllib.parse.unquote`

The inverse direction needed to state the `public_url` roundtrip: parse
`%XX` escapes back to bytes (an invalid escape keeps the `%` literally, as
CPython does), then decode the byte list as UTF-8. -/

/-- The numeric value of a hex digit, either case. -/
def hexVal (c : Char) : Option Nat :=
  if '0' ≤ c ∧ c ≤ '9' then some (c.toNat - 48)
  else if 'A' ≤ c ∧ c ≤ 'F' then some (c.toNat - 55)
  else if 'a' ≤ c ∧ c ≤ 'f' then some (c.toNat - 87)
  else none

/-- Percent-decode to bytes: `%XX` with two hex digits becomes one byte, any
other character contributes its UTF-8 bytes. -/
def unquoteBytesCh : List Char → List Nat
  | [] => []
  | '%' :: h :: l :: rest2 =>
    (match hexVal h, hexVal l with
     | some hv, some lv => (16 * hv + lv) :: unquoteBytesCh rest2
     | _, _ => utf8EncodeCh '%' ++ unquoteBytesCh (h :: l :: rest2))
  | c :: rest => utf8EncodeCh c ++ unquoteBytesCh rest

/-- Is `b` a UTF-8 continuation byte? -/
def isContByte (b : Nat) : Bool := 0x80 ≤ b ∧ b < 0xC0

/-- Decode one UTF-8 character from the front of a byte list: the character
and the remaining bytes, or `none` on malformed input. -/
def utf8DecodeOne : List Nat → Option (Char × List Nat)
  | [] => none
  | b0 :: rest =>
    if b0 < 0x80 then some (Char.ofNat b0, rest)
    else if b0 < 0xC0 then none
    else if b0 < 0xE0 then
      match rest with
      | b1 :: rest1 =>
        if isContByte b1 then
          some (Char.ofNat ((b0 - 0xC0) * 64 + (b1 - 0x80)), rest1)
        else none
      | [] => none
    else if b0 < 0xF0 then
      match rest with
      | b1 :: b2 :: rest2 =>
        if isContByte b1 && isContByte b2 then
          some (Char.ofNat ((b0 - 0xE0) * 4096 + (b1 - 0x80) * 64 + (b2 - 0x80)), rest2)
        else none
      | _ => none
    else if b0 < 0xF8 then
      match rest with
      | b1 :: b2 :: b3 :: rest3 =>
        if isContByte b1 && isContByte b2 && isContByte b3 then
          some (Char.ofNat ((b0 - 0xF0) * 0x40000 + (b1 - 0x80) * 4096 +
                            (b2 - 0x80) * 64 + (b3 - 0x80)), rest3)
        else none
      | _ => none
    else none

/-- Decode a UTF-8 byte list back to characters, with a fuel bound on the
number of characters produced; each step consumes at least one byte, so the
list's length is always enough fuel. -/
def utf8DecodeAux : Nat → List Nat → Option (List Char)
  | _, [] => some []
  | 0, _ :: _ => none
  | fuel + 1, b0 :: rest =>
    match utf8DecodeOne (b0 :: rest) with
    | none => none
    | some (c, rest2) => (utf8DecodeAux fuel rest2).map (fun cs => c :: cs)

/-- Decode a UTF-8 byte list back to characters (`none` on malformed input;
`quote` output is always well-formed). -/
def utf8Decode (l : List Nat) : Option (List Char) := utf8DecodeAux l.length l

/-- `urllib.parse.unquote`: percent-decode, then read the bytes as UTF-8. -/
def pyUnquote (s : String) : Option String :=
  (utf8Decode (unquoteBytesCh s.data)).map fun cs => ⟨cs⟩

/-! ## Concrete instances used by the witness theorems -/

/-- A downloader whose strategies always fail. -/
def dlFail : Downloader := fun _ => .error ⟨"RuntimeError", "boom"⟩

/-- A downloader that always yields the same file under the root. -/
def dlFixed : Downloader := fun _ => .ok ("/tmp/youtube_downloads/v x.mp4", "V")


/-! ## Shared helper lemmas -/

/-- `norm` only succeeds with the path it computed from the fragment. -/
theorem norm_ok_eq {dir : String} {fs : String → Bool} {p ap : String}
    (h : norm dir fs p = .ok ap) : ap = normTarget p := by
  by_cases hp : p = "" <;>
    cases hb : pyStartsWith (normTarget p) (abspathAbs dir) <;>
      cases hf : fs (normTarget p) <;> simp_all [norm]

/-- Every `norm` rejection carries status 400, 403 or 404. -/
theorem norm_error_status {dir : String} {fs : String → Bool} {p : String} {e : HTTPError}
    (h : norm dir fs p = .error e) : e.status = 400 ∨ e.status = 403 ∨ e.status = 404 := by
  by_cases hp : p = "" <;>
    cases hb : pyStartsWith (normTarget p) (abspathAbs dir) <;>
      cases hf : fs (normTarget p) <;> simp_all [norm] <;> simp [← h]

/-- `plainTail` answers 400 exactly on the empty URL. -/
theorem plainTail_status_400 (dl : Downloader) (msg u : String) :
    (plainTail dl msg u).status = 400 ↔ u = "" := by
  unfold plainTail
  split_ifs with h
  · simp [h]
  · cases hd : dl u <;> simp [hd, h]

/-! ## Claims -/

/-- Claim C1 (code bug): the spec requires canonicalized containment, but
`_norm` uses `abspath` plus a naive string prefix check.  With the root
`/tmp/youtube_downloads`, the fragment `tmp/youtube_downloads_evil/v.mp4`
resolves outside the root yet is accepted whenever it exists, while the plain
`../../etc/passwd` traversal is rejected because `abspath` collapses the
relative segments lexically. -/
theorem norm_accepts_sibling_of_root :
    norm (DOWNLOAD_DIR false) (fun q => q == "/tmp/youtube_downloads_evil/v.mp4")
        "tmp/youtube_downloads_evil/v.mp4" = .ok "/tmp/youtube_downloads_evil/v.mp4" ∧
    norm (DOWNLOAD_DIR false) (fun _ => true) "../../etc/passwd" =
        .error ⟨403, "Forbidden path"⟩ :=
  ⟨rfl, rfl⟩

/-- Claim C2: `_safe_download` runs Strategy A; exactly when A raises it runs
Strategy B once and returns B's outcome unchanged; when A succeeds B is never
invoked; A is invoked exactly once either way. -/
theorem safe_download_single_fallback (resA resB : Except PyExc (String × String)) :
    ((∃ e, resA = .error e) → safe_download resA resB = resB ∧
        (safe_download_calls resA).count Strategy.B = 1) ∧
    (∀ r, resA = .ok r → safe_download resA resB = .ok r ∧
        Strategy.B ∉ safe_download_calls resA) ∧
    (safe_download_calls resA).count Strategy.A = 1 := by
  cases resA with
  | ok r =>
    refine ⟨?_, ?_, ?_⟩
    · rintro ⟨e, h⟩; cases h
    · intro r' h; cases h; exact ⟨rfl, by simp [safe_download_calls]⟩
    · simp [safe_download_calls]
  | error e =>
    refine ⟨?_, ?_, ?_⟩
    · intro _; exact ⟨rfl, by simp [safe_download_calls]⟩
    · intro r' h; cases h
    · simp [safe_download_calls]

/-- Witness for C2: a failing Strategy A routes the URL to Strategy B once and
B's result is returned. -/
theorem safe_download_single_fallback_witness :
    safe_download (.error ⟨"URLError", "dns"⟩) (.ok ("/tmp/youtube_downloads/v.mp4", "t")) =
        .ok ("/tmp/youtube_downloads/v.mp4", "t") ∧
    (safe_download_calls (.error ⟨"URLError", "dns"⟩)).count Strategy.B = 1 :=
  (safe_download_single_fallback (.error ⟨"URLError", "dns"⟩)
    (.ok ("/tmp/youtube_downloads/v.mp4", "t"))).1 ⟨⟨"URLError", "dns"⟩, rfl⟩

/-- Claim C3: `_norm` checks in order — empty fragment 400; slash prepended and
`abspath` taken; outside the root 403 (regardless of existence); nonexistent
404; otherwise the validated absolute path. -/
theorem norm_check_order (dir : String) (fs : String → Bool) (p : String) :
    (p = "" → norm dir fs p = .error ⟨400, "Missing file path"⟩) ∧
    (p ≠ "" → pyStartsWith (normTarget p) (abspathAbs dir) = false →
        norm dir fs p = .error ⟨403, "Forbidden path"⟩) ∧
    (p ≠ "" → pyStartsWith (normTarget p) (abspathAbs dir) = true →
        fs (normTarget p) = false → norm dir fs p = .error ⟨404, "File not found"⟩) ∧
    (p ≠ "" → pyStartsWith (normTarget p) (abspathAbs dir) = true →
        fs (normTarget p) = true → norm dir fs p = .ok (normTarget p)) := by
  refine ⟨fun h => by simp [norm, h], fun h hs => ?_, fun h hs hf => ?_, fun h hs hf => ?_⟩
  · simp [norm, h, hs]
  · simp [norm, h, hs, hf]
  · simp [norm, h, hs, hf]

/-- Witness for C3: a real file inside the root is returned as its absolute
path; the empty fragment is a 400. -/
theorem norm_check_order_witness :
    norm (DOWNLOAD_DIR false) (fun q => q == "/tmp/youtube_downloads/v.mp4")
        "tmp/youtube_downloads/v.mp4" = .ok (normTarget "tmp/youtube_downloads/v.mp4") ∧
    norm (DOWNLOAD_DIR false) (fun _ => true) "" = .error ⟨400, "Missing file path"⟩ :=
  ⟨(norm_check_order (DOWNLOAD_DIR false) (fun q => q == "/tmp/youtube_downloads/v.mp4")
      "tmp/youtube_downloads/v.mp4").2.2.2 (by decide) rfl rfl,
   (norm_check_order (DOWNLOAD_DIR false) (fun _ => true) "").1 rfl⟩


/-- Claim C9: `GET /file={path}` and `GET /file/{path}` are the same function
of the fragment: identical results always; on success the served file is the
resolved path with its basename as filename hint and the generic binary
content type; on failure the same 400/403/404 rejection. -/
theorem serve_routes_equivalent (dir : String) (fs : String → Bool) (p : String) :
    serve_file_legacy dir fs p = serve_file_alt dir fs p ∧
    (∀ r, serve_file_legacy dir fs p = .ok r →
        r.path = normTarget p ∧ r.filename = basename r.path ∧
        r.media_type = "application/octet-stream") ∧
    (∀ e, serve_file_legacy dir fs p = .error e →
        e.status = 400 ∨ e.status = 403 ∨ e.status = 404) := by
  refine ⟨rfl, ?_, ?_⟩
  · intro r hr
    unfold serve_file_legacy at hr
    cases hn : norm dir fs p with
    | ok ap =>
      rw [hn] at hr
      cases hr
      exact ⟨norm_ok_eq hn, rfl, rfl⟩
    | error e => rw [hn] at hr; cases hr
  · intro e he
    unfold serve_file_legacy at he
    cases hn : norm dir fs p with
    | ok ap => rw [hn] at he; cases he
    | error e2 =>
      rw [hn] at he
      cases he
      exact norm_error_status hn

/-- Witness for C9: a file inside the root is served identically by both
routes, with basename filename and binary content type. -/
theorem serve_routes_equivalent_witness :
    serve_file_legacy (DOWNLOAD_DIR false) (fun q => q == "/tmp/youtube_downloads/v.mp4")
        "tmp/youtube_downloads/v.mp4" =
      serve_file_alt (DOWNLOAD_DIR false) (fun q => q == "/tmp/youtube_downloads/v.mp4")
        "tmp/youtube_downloads/v.mp4" ∧
    (⟨"/tmp/youtube_downloads/v.mp4", "v.mp4", "application/octet-stream"⟩ : FileResp).path =
        normTarget "tmp/youtube_downloads/v.mp4" :=
  ⟨(serve_routes_equivalent (DOWNLOAD_DIR false)
      (fun q => q == "/tmp/youtube_downloads/v.mp4") "tmp/youtube_downloads/v.mp4").1,
   ((serve_routes_equivalent (DOWNLOAD_DIR false)
      (fun q => q == "/tmp/youtube_downloads/v.mp4") "tmp/youtube_downloads/v.mp4").2.1
      ⟨"/tmp/youtube_downloads/v.mp4", "v.mp4", "application/octet-stream"⟩ rfl).1⟩

/-- Claim C10 (counterexample): `{"url": 0}` is present and not a string, yet
the route answers 400, not 500 — the value is falsy, so `payload.get("url")
or ""` replaces it before `.strip()` can raise. -/
theorem download_plain_falsy_nonstring_400 :
    (download_plain dlFail (.obj [("url", .num 0)])).status = 400 ∧
    (download_plain dlFail (.obj [("url", .num 0)])).status ≠ 500 :=
  ⟨rfl, by decide⟩

/-- Claim C10 (amended): a truthy non-string `url` value raises
`AttributeError` at `.strip()` and surfaces as the 500 handler; the 400
branch is taken exactly when the value is falsy (missing, `None`, `0`,
`false`, empty list/object, empty string) or a string of whitespace. -/
theorem download_plain_url_type_handling (dl : Downloader) (payload : JVal) :
    (∀ v, payload.get "url" = v → v.truthy = true → (∀ s, v ≠ .str s) →
      download_plain dl payload =
        ⟨500, .obj [("error", .str ("AttributeError: \x27" ++ v.typeName ++
            "\x27 object has no attribute \x27strip\x27"))], []⟩) ∧
    ((download_plain dl payload).status = 400 ↔
      ((payload.get "url").truthy = false ∨
        ∃ s, payload.get "url" = .str s ∧ pyStrip s = "")) := by
  constructor
  · intro v hv ht hns
    cases v with
    | str s => exact absurd rfl (hns s)
    | null => simp [JVal.truthy] at ht
    | bool b => simp_all [download_plain, JVal.truthy, JVal.typeName]
    | num n => simp_all [download_plain, JVal.truthy, JVal.typeName]
    | arr xs => simp_all [download_plain, JVal.truthy, JVal.typeName]
    | obj fs => simp_all [download_plain, JVal.truthy, JVal.typeName]
  · cases hv : payload.get "url" with
    | str s =>
      simp only [download_plain, hv]
      rw [plainTail_status_400]
      constructor
      · intro h
        exact Or.inr ⟨s, rfl, h⟩
      · rintro (h | ⟨s', hs', h⟩)
        · simp [JVal.truthy] at h
          subst h
          rfl
        · cases hs'
          exact h
    | null => simp [download_plain, hv, JVal.truthy, plainTail]
    | bool b =>
      cases b <;> simp [download_plain, hv, JVal.truthy, plainTail]
    | num n =>
      by_cases hn : n = 0 <;>
        simp [download_plain, hv, JVal.truthy, hn, plainTail]
    | arr xs =>
      cases xs <;> simp [download_plain, hv, JVal.truthy, plainTail]
    | obj fs =>
      cases fs <;> simp [download_plain, hv, JVal.truthy, plainTail]

/-- Witness for C10 (amended): a truthy non-string value (`{"url": [1]}`)
yields the AttributeError 500 without invoking a strategy. -/
theorem download_plain_url_type_handling_witness :
    download_plain dlFail (.obj [("url", .arr [.num 1])]) =
      ⟨500, .obj [("error", .str ("AttributeError: \x27list\x27 object has no attribute \x27strip\x27"))],
       []⟩ :=
  (download_plain_url_type_handling dlFail (.obj [("url", .arr [.num 1])])).1
    (.arr [.num 1]) rfl rfl (fun s h => by cases h)

/-- Claim C5: an empty or whitespace-only URL makes each download route
answer its 400 error with no strategy invocation (`calls = []`), hence no
filesystem write. -/
theorem empty_url_rejected (dl : Downloader) (payload : JVal) (url : String) :
    ((payload.get "url" = .null ∨ ∃ s, payload.get "url" = .str s ∧ pyStrip s = "") →
      download_plain dl payload = ⟨400, .obj [("error", .str "No URL provided")], []⟩) ∧
    (pyStrip url = "" →
      download_plain_get dl url = ⟨400, .obj [("error", .str "No URL provided")], []⟩) ∧
    ((gradioUrlField payload = .null ∨ ∃ s, gradioUrlField payload = .str s ∧ pyStrip s = "") →
      download_gradio dl payload = ⟨400, gradioBadBody, []⟩) := by
  refine ⟨?_, ?_, ?_⟩
  · rintro (h | ⟨s, hs, h⟩)
    · simp [download_plain, h, JVal.truthy, plainTail]
    · simp [download_plain, hs, h, plainTail]
  · intro h
    simp [download_plain_get, h, plainTail]
  · rintro (h | ⟨s, hs, h⟩)
    · simp [download_gradio, h, JVal.truthy, gradioTail]
    · simp [download_gradio, hs, h, gradioTail]

/-- Witness for C5: whitespace URLs hit the 400 branch of all three routes
with an empty call trace. -/
theorem empty_url_rejected_witness :
    download_plain dlFail (.obj [("url", .str " ")]) =
        ⟨400, .obj [("error", .str "No URL provided")], []⟩ ∧
    download_plain_get dlFail " " = ⟨400, .obj [("error", .str "No URL provided")], []⟩ ∧
    download_gradio dlFail (.obj [("data", .arr [.str " "])]) = ⟨400, gradioBadBody, []⟩ :=
  ⟨(empty_url_rejected dlFail (.obj [("url", .str " ")]) " ").1 (Or.inr ⟨" ", rfl, rfl⟩),
   (empty_url_rejected dlFail (.obj []) " ").2.1 rfl,
   (empty_url_rejected dlFail (.obj [("data", .arr [.str " "])]) " ").2.2
     (Or.inr ⟨" ", rfl, rfl⟩)⟩

/-- `download_gradio` is either a `gradioTail` run on the extracted URL, or
the AttributeError 500 of a truthy non-string URL value. -/
theorem download_gradio_split (dl : Downloader) (payload : JVal) :
    (∃ u, download_gradio dl payload = gradioTail dl u) ∨
    (∃ n, download_gradio dl payload =
      ⟨500, gradioErrBody ("AttributeError: \x27" ++ n ++
          "\x27 object has no attribute \x27strip\x27"), []⟩) := by
  unfold download_gradio
  cases hg : gradioUrlField payload with
  | str s => exact Or.inl ⟨pyStrip s, rfl⟩
  | null => exact Or.inl ⟨"", rfl⟩
  | bool b =>
    cases b
    · exact Or.inl ⟨"", rfl⟩
    · exact Or.inr ⟨"bool", rfl⟩
  | num n =>
    cases hnt : (JVal.num n).truthy
    · exact Or.inl ⟨"", by simp [hnt]⟩
    · exact Or.inr ⟨"int", by simp [hnt, JVal.typeName]⟩
  | arr xs =>
    cases hnt : (JVal.arr xs).truthy
    · exact Or.inl ⟨"", by simp [hnt]⟩
    · exact Or.inr ⟨"list", by simp [hnt, JVal.typeName]⟩
  | obj fs =>
    cases hnt : (JVal.obj fs).truthy
    · exact Or.inl ⟨"", by simp [hnt]⟩
    · exact Or.inr ⟨"dict", by simp [hnt, JVal.typeName]⟩

/-- Shape of every `gradioTail` outcome, by status. -/
theorem gradioTail_shapes (dl : Downloader) (u : String) :
    ((gradioTail dl u).status = 200 →
        ∃ fp title, (gradioTail dl u).body = gradioOkBody fp title) ∧
    ((gradioTail dl u).status = 500 → ∃ e, (gradioTail dl u).body = gradioErrBody e) ∧
    ((gradioTail dl u).status = 400 → (gradioTail dl u).body = gradioBadBody) := by
  unfold gradioTail
  split_ifs with h
  · exact ⟨fun hst => by simp at hst, fun hst => by simp at hst, fun _ => rfl⟩
  · cases hd : dl u with
    | ok pr => exact ⟨fun _ => ⟨pr.1, pr.2, rfl⟩, fun hst => by simp at hst,
        fun hst => by simp at hst⟩
    | error e => exact ⟨fun hst => by simp at hst, fun _ => ⟨e.kind ++ ": " ++ e.msg, rfl⟩,
        fun hst => by simp at hst⟩

/-- Claim C4 (counterexample): the 400 bad-payload answer of
`POST /api/predict/download` carries `"data": []`, not the claimed
`[null, "Error: ..."]` error shape. -/
theorem gradio_badpayload_shape_cex :
    (download_gradio dlFail (.obj [])).status = 400 ∧
    ∀ e, (download_gradio dlFail (.obj [])).body ≠ gradioErrBody e := by
  refine ⟨rfl, fun e h => ?_⟩
  have hb : (download_gradio dlFail (.obj [])).body = gradioBadBody := rfl
  rw [hb] at h
  simp [gradioBadBody, gradioErrBody] at h

/-- Claim C4 (amended): a 200 answer of `POST /api/predict/download` has the
`{"data": [info, status, public url]}` shape and a 500 answer the
`{"error": e, "data": [null, "Error: " + e]}` shape, as claimed; the 400
bad-payload answer instead carries `{"error": ..., "data": []}`. -/
theorem gradio_response_shapes (dl : Downloader) (payload : JVal) :
    ((download_gradio dl payload).status = 200 →
        ∃ fp title, (download_gradio dl payload).body = gradioOkBody fp title) ∧
    ((download_gradio dl payload).status = 500 →
        ∃ e, (download_gradio dl payload).body = gradioErrBody e) ∧
    ((download_gradio dl payload).status = 400 →
        (download_gradio dl payload).body = gradioBadBody) := by
  rcases download_gradio_split dl payload with ⟨u, hu⟩ | ⟨n, hn⟩
  · rw [hu]
    exact gradioTail_shapes dl u
  · rw [hn]
    exact ⟨fun hst => by simp at hst, fun _ => ⟨_, rfl⟩, fun hst => by simp at hst⟩

/-- Witness for C4 (amended): a failing downloader on a well-formed payload
produces the 500 error shape. -/
theorem gradio_response_shapes_witness :
    ∃ e, (download_gradio dlFail (.obj [("url", .str "u")])).body = gradioErrBody e :=
  (gradio_response_shapes dlFail (.obj [("url", .str "u")])).2.1 rfl

/-- The running maximum of `newerOf` is one of the candidates and no candidate
has a larger mtime (Python `max` keeps the first of tied maxima). -/
theorem foldl_newerOf_spec (xs : List FileEntry) (x : FileEntry) :
    xs.foldl newerOf x ∈ x :: xs ∧
    ∀ f ∈ x :: xs, f.mtime ≤ (xs.foldl newerOf x).mtime := by
  induction xs generalizing x with
  | nil => simp
  | cons y ys ih =>
    obtain ⟨hmem, hmax⟩ := ih (newerOf x y)
    constructor
    · simp only [List.foldl_cons]
      rcases List.mem_cons.1 hmem with h1 | h1
      · rw [h1]
        unfold newerOf
        split_ifs <;> simp
      · exact List.mem_cons_of_mem _ (List.mem_cons_of_mem _ h1)
    · intro f hf
      simp only [List.foldl_cons]
      rcases List.mem_cons.1 hf with rfl | hf1
      · have hx : f.mtime ≤ (newerOf f y).mtime := by
          unfold newerOf
          split_ifs <;> omega
        exact le_trans hx (hmax (newerOf f y) (List.mem_cons_self _ _))
      · rcases List.mem_cons.1 hf1 with rfl | hf2
        · have hy : f.mtime ≤ (newerOf x f).mtime := by
            unfold newerOf
            split_ifs <;> omega
          exact le_trans hy (hmax (newerOf x f) (List.mem_cons_self _ _))
        · exact hmax f (List.mem_cons_of_mem _ hf2)

/-- Claim C7: `download_with_ytdlp` raises the `yt-dlp failed` error carrying
the output's bounded tail exactly when the process exits non-zero; on exit
zero with a non-empty root it returns the most-recently-modified file with its
extension-stripped name as title. -/
theorem ytdlp_contract (dir : String) (rc : Int) (out : String) (listing : List FileEntry) :
    ((∃ m, download_with_ytdlp dir rc out listing =
        .error ⟨"RuntimeError", "yt-dlp failed:\n" ++ m⟩ ∧
        m = tailSlice1000 out ∧ m.length ≤ 1000) ↔ rc ≠ 0) ∧
    (rc = 0 → listing ≠ [] → ∃ e, e ∈ listing ∧ (∀ f ∈ listing, f.mtime ≤ e.mtime) ∧
      download_with_ytdlp dir rc out listing =
        .ok (abspathAbs (pathJoin dir e.name),
             splitextRoot (basename (pathJoin dir e.name)))) := by
  constructor
  · constructor
    · rintro ⟨m, hm, _, _⟩ h0
      rw [h0] at hm
      simp only [download_with_ytdlp] at hm
      cases listing with
      | nil => simp [maxByMtime] at hm
      | cons x xs => simp [maxByMtime] at hm
    · intro hrc
      refine ⟨tailSlice1000 out, by simp [download_with_ytdlp, hrc], rfl, ?_⟩
      show (⟨out.data.drop (out.data.length - 1000)⟩ : String).length ≤ 1000
      have : (⟨out.data.drop (out.data.length - 1000)⟩ : String).length =
          (out.data.drop (out.data.length - 1000)).length := rfl
      rw [this, List.length_drop]
      omega
  · intro hrc hne
    cases listing with
    | nil => exact absurd rfl hne
    | cons x xs =>
      obtain ⟨hmem, hmax⟩ := foldl_newerOf_spec xs x
      exact ⟨xs.foldl newerOf x, hmem, hmax,
        by simp [download_with_ytdlp, hrc, maxByMtime]⟩

/-- Witness for C7: on exit zero the newer of two files is selected and its
name without extension becomes the title. -/
theorem ytdlp_contract_witness :
    ∃ e, e ∈ [(⟨"a.mp4", 2⟩ : FileEntry), ⟨"b.mp4", 5⟩] ∧
      (∀ f ∈ [(⟨"a.mp4", 2⟩ : FileEntry), ⟨"b.mp4", 5⟩], f.mtime ≤ e.mtime) ∧
      download_with_ytdlp "/tmp/youtube_downloads" 0 "" [⟨"a.mp4", 2⟩, ⟨"b.mp4", 5⟩] =
        .ok (abspathAbs (pathJoin "/tmp/youtube_downloads" e.name),
             splitextRoot (basename (pathJoin "/tmp/youtube_downloads" e.name))) :=
  (ytdlp_contract "/tmp/youtube_downloads" 0 "" [⟨"a.mp4", 2⟩, ⟨"b.mp4", 5⟩]).2 rfl
    (by simp)

/-- Membership is preserved by descending insertion. -/
theorem mem_insertDescByRes {x s : Stream} {l : List Stream} :
    x ∈ insertDescByRes s l ↔ x = s ∨ x ∈ l := by
  induction l with
  | nil => simp [insertDescByRes]
  | cons t ts ih =>
    unfold insertDescByRes
    split_ifs with h
    · simp only [List.mem_cons]
    · simp only [List.mem_cons, ih]
      tauto

/-- Descending insertion keeps the head maximal. -/
theorem insertDescByRes_max (s : Stream) (l : List Stream)
    (hl : ∀ h, l.head? = some h → ∀ t ∈ l, resKey t ≤ resKey h) :
    ∀ h, (insertDescByRes s l).head? = some h →
      ∀ t ∈ insertDescByRes s l, resKey t ≤ resKey h := by
  cases l with
  | nil =>
    intro h hh t ht
    simp [insertDescByRes] at hh ht
    rw [hh] at ht
    rw [ht]
  | cons a as =>
    intro h hh t ht
    unfold insertDescByRes at hh ht
    split_ifs at hh ht with hc
    · simp only [List.head?_cons, Option.some.injEq] at hh
      subst hh
      rcases List.mem_cons.1 ht with rfl | ht1
      · exact le_refl _
      · exact le_trans (hl a rfl t ht1) (le_of_lt hc)
    · simp only [List.head?_cons, Option.some.injEq] at hh
      subst hh
      rcases List.mem_cons.1 ht with rfl | ht1
      · exact le_refl _
      · rcases mem_insertDescByRes.1 ht1 with rfl | ht2
        · exact not_lt.1 hc
        · exact hl a rfl t (List.mem_cons_of_mem _ ht2)

/-- The descending fold keeps exactly the input's members and a maximal head. -/
theorem foldr_insertDesc_spec (m : List Stream) :
    (∀ x, x ∈ m.foldr insertDescByRes [] ↔ x ∈ m) ∧
    (∀ h, (m.foldr insertDescByRes []).head? = some h →
        ∀ t ∈ m.foldr insertDescByRes [], resKey t ≤ resKey h) := by
  induction m with
  | nil => exact ⟨by simp, by intro h hh; simp at hh⟩
  | cons a as ih =>
    obtain ⟨ihmem, ihmax⟩ := ih
    constructor
    · intro x
      simp only [List.foldr_cons, mem_insertDescByRes, ihmem, List.mem_cons]
    · intro h hh t ht
      simp only [List.foldr_cons] at hh ht
      exact insertDescByRes_max a _ ihmax h hh t ht

/-- Claim C8: `download_with_pytube` keeps `get_highest_resolution()` when it
is progressive; otherwise it re-queries progressive MP4 streams by descending
resolution and takes the first; with no progressive stream at all it raises
the no-stream error; a success pairs the absolute path with the metadata
title, falling back to the file's basename. -/
theorem pytube_contract (yt : YT) :
    (∀ s, yt.highest = some s → s.is_progressive = true →
      download_with_pytube yt =
        .ok (abspathAbs s.downloadPath,
             if yt.title ≠ "" then yt.title else basename s.downloadPath)) ∧
    ((yt.highest = none ∨ (∃ s, yt.highest = some s ∧ s.is_progressive = false)) →
      ((orderByResolutionDesc (filterProgressiveMp4 yt.streams)).head? = none →
        download_with_pytube yt =
          .error ⟨"RuntimeError", "No progressive MP4 stream found."⟩) ∧
      (∀ s, (orderByResolutionDesc (filterProgressiveMp4 yt.streams)).head? = some s →
        s ∈ yt.streams ∧ s.is_progressive = true ∧ s.file_extension = "mp4" ∧
        (∀ t ∈ yt.streams, t.is_progressive = true → t.file_extension = "mp4" →
          t.resolution.isSome = true → resKey t ≤ resKey s) ∧
        download_with_pytube yt =
          .ok (abspathAbs s.downloadPath,
               if yt.title ≠ "" then yt.title else basename s.downloadPath))) ∧
    ((∀ s ∈ yt.streams, s.is_progressive = false) →
      (∀ s, yt.highest = some s → s ∈ yt.streams) →
      download_with_pytube yt =
        .error ⟨"RuntimeError", "No progressive MP4 stream found."⟩) := by
  refine ⟨?_, ?_, ?_⟩
  · intro s hh hp
    simp [download_with_pytube, hh, hp]
  · intro hcase
    constructor
    · intro hnone
      rcases hcase with hno | ⟨s, hs, hp⟩
      · simp [download_with_pytube, hno, hnone]
      · simp [download_with_pytube, hs, hp, hnone]
    · intro s hh
      have hsmem : s ∈ orderByResolutionDesc (filterProgressiveMp4 yt.streams) := by
        cases hl : orderByResolutionDesc (filterProgressiveMp4 yt.streams) with
        | nil => rw [hl] at hh; cases hh
        | cons a rest =>
          have ha : a = s := by
            rw [hl] at hh
            simpa [List.head?] using hh
          rw [ha]
          exact List.mem_cons_self _ _
      have hfil : s ∈ (filterProgressiveMp4 yt.streams).filter
          (fun t => t.resolution.isSome) :=
        (foldr_insertDesc_spec _).1 s |>.1 hsmem
      have hfil2 : s ∈ filterProgressiveMp4 yt.streams := (List.mem_filter.1 hfil).1
      have hprops := (List.mem_filter.1 hfil2).2
      simp only [decide_eq_true_eq] at hprops
      refine ⟨(List.mem_filter.1 hfil2).1, by simp [hprops.1], by simp [hprops.2], ?_, ?_⟩
      · intro t htmem htp hte htr
        have htfil : t ∈ (filterProgressiveMp4 yt.streams).filter
            (fun t => t.resolution.isSome) := by
          refine List.mem_filter.2 ⟨List.mem_filter.2 ⟨htmem, ?_⟩, by simp [htr]⟩
          simp [htp, hte]
        have := (foldr_insertDesc_spec _).2 s hh t
          (((foldr_insertDesc_spec _).1 t).2 htfil)
        exact this
      · rcases hcase with hno | ⟨s2, hs2, hp2⟩
        · simp [download_with_pytube, hno, hh]
        · simp [download_with_pytube, hs2, hp2, hh]
  · intro hnp hcoh
    have hempty : filterProgressiveMp4 yt.streams = [] := by
      rw [filterProgressiveMp4, List.filter_eq_nil_iff]
      intro a ha
      simp [hnp a ha]
    have hnone : (orderByResolutionDesc (filterProgressiveMp4 yt.streams)).head? = none := by
      rw [hempty]
      rfl
    cases hh : yt.highest with
    | none => simp [download_with_pytube, hh, hempty, orderByResolutionDesc]
    | some s =>
      have := hnp s (hcoh s hh)
      simp [download_with_pytube, hh, this, hempty, orderByResolutionDesc]

/-- Witness for C8: with no `get_highest_resolution` result and two
progressive MP4 streams, the 720p stream is selected, downloaded, and the
empty title falls back to the file's basename. -/
theorem pytube_contract_witness :
    (⟨true, "mp4", some 720, "/tmp/youtube_downloads/b.mp4"⟩ : Stream) ∈
        [(⟨true, "mp4", some 360, "/tmp/youtube_downloads/a.mp4"⟩ : Stream),
         ⟨true, "mp4", some 720, "/tmp/youtube_downloads/b.mp4"⟩] ∧
    (⟨true, "mp4", some 720, "/tmp/youtube_downloads/b.mp4"⟩ : Stream).is_progressive = true ∧
    (⟨true, "mp4", some 720, "/tmp/youtube_downloads/b.mp4"⟩ : Stream).file_extension = "mp4" ∧
    (∀ t ∈ [(⟨true, "mp4", some 360, "/tmp/youtube_downloads/a.mp4"⟩ : Stream),
            ⟨true, "mp4", some 720, "/tmp/youtube_downloads/b.mp4"⟩],
        t.is_progressive = true → t.file_extension = "mp4" → t.resolution.isSome = true →
        resKey t ≤ resKey ⟨true, "mp4", some 720, "/tmp/youtube_downloads/b.mp4"⟩) ∧
    download_with_pytube ⟨[⟨true, "mp4", some 360, "/tmp/youtube_downloads/a.mp4"⟩,
                           ⟨true, "mp4", some 720, "/tmp/youtube_downloads/b.mp4"⟩], none, ""⟩ =
      .ok (abspathAbs "/tmp/youtube_downloads/b.mp4",
           if ("" : String) ≠ "" then "" else basename "/tmp/youtube_downloads/b.mp4") :=
  ((pytube_contract ⟨[⟨true, "mp4", some 360, "/tmp/youtube_downloads/a.mp4"⟩,
                      ⟨true, "mp4", some 720, "/tmp/youtube_downloads/b.mp4"⟩], none, ""⟩).2.1
    (Or.inl rfl)).2 ⟨true, "mp4", some 720, "/tmp/youtube_downloads/b.mp4"⟩ rfl

/-! ## Percent-encoding roundtrip lemmas (claim C6) -/

/-- Every character code is below the Unicode bound. -/
theorem char_toNat_lt (c : Char) : c.toNat < 0x110000 := by
  rcases c.valid with h | ⟨_, h⟩
  · exact Nat.lt_trans h (by decide)
  · exact h

/-- `Char.ofNat` inverts `toNat` on valid codes. -/
theorem toNat_ofNat_valid {n : Nat} (h : n.isValidChar) : (Char.ofNat n).toNat = n := by
  simp [Char.ofNat, dif_pos h, Char.ofNatAux, Char.toNat, UInt32.toNat, BitVec.toNat_ofNatLt]

/-- `Char.ofNat` inverts `toNat` below the surrogate range. -/
theorem toNat_ofNat_small {b : Nat} (h : b < 55296) : (Char.ofNat b).toNat = b :=
  toNat_ofNat_valid (Or.inl h)

/-- Safe bytes are ASCII and never the percent sign. -/
theorem safeByte_bounds {b : Nat} (hs : safeByte b = true) : b < 128 ∧ b ≠ 37 := by
  simp [safeByte] at hs
  omega

/-- Encoding an ASCII code point yields exactly that byte. -/
theorem utf8EncodeCh_ofNat_small {b : Nat} (h : b < 128) :
    utf8EncodeCh (Char.ofNat b) = [b] := by
  have ht : (Char.ofNat b).toNat = b := toNat_ofNat_small (by omega)
  simp [utf8EncodeCh, ht, h]

/-- A non-37 ASCII code never maps to the percent character. -/
theorem ofNat_ne_percent {b : Nat} (hlt : b < 128) (hne : b ≠ 37) : Char.ofNat b ≠ '%' := by
  intro heq
  have h2 := congrArg Char.toNat heq
  rw [toNat_ofNat_small (by omega)] at h2
  exact hne h2

/-- Hex digits read back to their value. -/
theorem hexVal_hexDigitCh {n : Nat} (h : n < 16) : hexVal (hexDigitCh n) = some n := by
  interval_cases n <;> rfl

/-- `unquoteBytesCh` on a percent escape. -/
theorem unquote_percent (x y : Char) (z : List Char) :
    unquoteBytesCh ('%' :: x :: y :: z) =
      (match hexVal x, hexVal y with
       | some hv, some lv => (16 * hv + lv) :: unquoteBytesCh z
       | _, _ => utf8EncodeCh '%' ++ unquoteBytesCh (x :: y :: z)) := rfl

/-- `unquoteBytesCh` on a literal (non-percent) character. -/
theorem unquote_notpercent (c : Char) (hc : c ≠ '%') (z : List Char) :
    unquoteBytesCh (c :: z) = utf8EncodeCh c ++ unquoteBytesCh z := by
  rw [unquoteBytesCh.eq_def]
  split
  · rename_i heq
    cases heq
  · rename_i x h l rest2 heq
    injection heq with h1 h2
    exact absurd h1 hc
  · rename_i c2 rest hno heq
    injection heq with h1 h2
    rw [h1, h2]

/-- Percent-decoding inverts percent-encoding at the byte level. -/
theorem unquote_quoteBytes (bs : List Nat) (h : ∀ b ∈ bs, b < 256) :
    unquoteBytesCh (quoteBytes bs) = bs := by
  induction bs with
  | nil => rfl
  | cons b rest ih =>
    have hb : b < 256 := h b (List.mem_cons_self _ _)
    have hrest := ih (fun x hx => h x (List.mem_cons_of_mem _ hx))
    by_cases hs : safeByte b = true
    · obtain ⟨hlt, hne⟩ := safeByte_bounds hs
      have hq : quoteBytes (b :: rest) = Char.ofNat b :: quoteBytes rest := by
        simp [quoteBytes, hs]
      rw [hq, unquote_notpercent _ (ofNat_ne_percent hlt hne),
          utf8EncodeCh_ofNat_small hlt, hrest]
      rfl
    · have hq : quoteBytes (b :: rest) =
          '%' :: hexDigitCh (b / 16) :: hexDigitCh (b % 16) :: quoteBytes rest := by
        simp [quoteBytes, hs]
      rw [hq, unquote_percent, hexVal_hexDigitCh (by omega), hexVal_hexDigitCh (by omega)]
      show (16 * (b / 16) + b % 16) :: unquoteBytesCh (quoteBytes rest) = b :: rest
      rw [hrest]
      congr 1
      omega

theorem utf8DecodeOne_encodeCh (c : Char) (bs : List Nat) :
    utf8DecodeOne (utf8EncodeCh c ++ bs) = some (c, bs) := by
  have hv := char_toNat_lt c
  by_cases h1 : c.toNat < 0x80
  · have he : utf8EncodeCh c = [c.toNat] := by simp [utf8EncodeCh, h1]
    rw [he]
    show utf8DecodeOne (c.toNat :: bs) = _
    simp [utf8DecodeOne, h1, Char.ofNat_toNat]
  · by_cases h2 : c.toNat < 0x800
    · have he : utf8EncodeCh c = [0xC0 + c.toNat / 64, 0x80 + c.toNat % 64] := by
        simp [utf8EncodeCh, h1, h2]
      have c1 : ¬ (0xC0 + c.toNat / 64 < 0x80) := by omega
      have c2 : ¬ (0xC0 + c.toNat / 64 < 0xC0) := by omega
      have c3 : 0xC0 + c.toNat / 64 < 0xE0 := by omega
      have c4 : isContByte (0x80 + c.toNat % 64) = true := by
        simp only [isContByte, decide_eq_true_eq]
        omega
      rw [he]
      show utf8DecodeOne ((0xC0 + c.toNat / 64) :: (0x80 + c.toNat % 64) :: bs) = _
      simp only [utf8DecodeOne, if_neg c1, if_neg c2, if_pos c3, if_pos c4]
      rw [show (0xC0 + c.toNat / 64 - 0xC0) * 64 + (0x80 + c.toNat % 64 - 0x80) =
          c.toNat from by omega, Char.ofNat_toNat]
    · by_cases h3 : c.toNat < 0x10000
      · have he : utf8EncodeCh c =
            [0xE0 + c.toNat / 4096, 0x80 + c.toNat / 64 % 64, 0x80 + c.toNat % 64] := by
          simp [utf8EncodeCh, h1, h2, h3]
        have c1 : ¬ (0xE0 + c.toNat / 4096 < 0x80) := by omega
        have c2 : ¬ (0xE0 + c.toNat / 4096 < 0xC0) := by omega
        have c3 : ¬ (0xE0 + c.toNat / 4096 < 0xE0) := by omega
        have c4 : 0xE0 + c.toNat / 4096 < 0xF0 := by omega
        have c5 : (isContByte (0x80 + c.toNat / 64 % 64) &&
            isContByte (0x80 + c.toNat % 64)) = true := by
          simp only [isContByte, Bool.and_eq_true, decide_eq_true_eq]
          omega
        rw [he]
        show utf8DecodeOne ((0xE0 + c.toNat / 4096) :: (0x80 + c.toNat / 64 % 64) ::
            (0x80 + c.toNat % 64) :: bs) = _
        simp only [utf8DecodeOne, if_neg c1, if_neg c2, if_neg c3, if_pos c4, if_pos c5]
        rw [show (0xE0 + c.toNat / 4096 - 0xE0) * 4096 +
            (0x80 + c.toNat / 64 % 64 - 0x80) * 64 + (0x80 + c.toNat % 64 - 0x80) =
            c.toNat from by omega, Char.ofNat_toNat]
      · have he : utf8EncodeCh c =
            [0xF0 + c.toNat / 0x40000, 0x80 + c.toNat / 4096 % 64,
             0x80 + c.toNat / 64 % 64, 0x80 + c.toNat % 64] := by
          simp [utf8EncodeCh, h1, h2, h3]
        have c1 : ¬ (0xF0 + c.toNat / 0x40000 < 0x80) := by omega
        have c2 : ¬ (0xF0 + c.toNat / 0x40000 < 0xC0) := by omega
        have c3 : ¬ (0xF0 + c.toNat / 0x40000 < 0xE0) := by omega
        have c4 : ¬ (0xF0 + c.toNat / 0x40000 < 0xF0) := by omega
        have c5 : 0xF0 + c.toNat / 0x40000 < 0xF8 := by omega
        have c6 : (isContByte (0x80 + c.toNat / 4096 % 64) &&
            isContByte (0x80 + c.toNat / 64 % 64) &&
            isContByte (0x80 + c.toNat % 64)) = true := by
          simp only [isContByte, Bool.and_eq_true, decide_eq_true_eq]
          omega
        rw [he]
        show utf8DecodeOne ((0xF0 + c.toNat / 0x40000) :: (0x80 + c.toNat / 4096 % 64) ::
            (0x80 + c.toNat / 64 % 64) :: (0x80 + c.toNat % 64) :: bs) = _
        simp only [utf8DecodeOne, if_neg c1, if_neg c2, if_neg c3, if_neg c4, if_pos c5,
          if_pos c6]
        rw [show (0xF0 + c.toNat / 0x40000 - 0xF0) * 0x40000 +
            (0x80 + c.toNat / 4096 % 64 - 0x80) * 4096 +
            (0x80 + c.toNat / 64 % 64 - 0x80) * 64 + (0x80 + c.toNat % 64 - 0x80) =
            c.toNat from by omega, Char.ofNat_toNat]

theorem utf8EncodeCh_length_pos (c : Char) : 1 ≤ (utf8EncodeCh c).length := by
  simp only [utf8EncodeCh]
  split_ifs <;> simp

theorem utf8DecodeAux_flatMap (cs : List Char) :
    ∀ fuel, (cs.flatMap utf8EncodeCh).length ≤ fuel →
      utf8DecodeAux fuel (cs.flatMap utf8EncodeCh) = some cs := by
  induction cs with
  | nil =>
    intro fuel _
    cases fuel <;> rfl
  | cons c rest ih =>
    intro fuel hf
    rw [List.flatMap_cons] at hf ⊢
    have hdec := utf8DecodeOne_encodeCh c (rest.flatMap utf8EncodeCh)
    have hlen := utf8EncodeCh_length_pos c
    rcases henc : utf8EncodeCh c ++ rest.flatMap utf8EncodeCh with _ | ⟨b0, tail⟩
    · exfalso
      have hl := congrArg List.length henc
      simp only [List.length_append, List.length_nil] at hl
      omega
    · have hl := congrArg List.length henc
      simp only [List.length_append, List.length_cons] at hl
      cases fuel with
      | zero =>
        exfalso
        rw [henc] at hf
        simp at hf
      | succ f =>
        rw [henc] at hf hdec
        simp only [utf8DecodeAux]
        rw [hdec]
        show Option.map (fun cs => c :: cs) (utf8DecodeAux f (rest.flatMap utf8EncodeCh)) =
          some (c :: rest)
        rw [ih f (by simp only [List.length_cons] at hf; omega)]
        rfl

theorem utf8Decode_flatMap (cs : List Char) :
    utf8Decode (cs.flatMap utf8EncodeCh) = some cs :=
  utf8DecodeAux_flatMap cs _ (le_refl _)

theorem utf8EncodeCh_lt (c : Char) : ∀ b ∈ utf8EncodeCh c, b < 256 := by
  have hv := char_toNat_lt c
  intro b hb
  simp only [utf8EncodeCh] at hb
  split_ifs at hb <;> simp at hb <;> omega

theorem utf8Encode_lt (s : String) : ∀ b ∈ utf8Encode s, b < 256 := by
  intro b hb
  rw [utf8Encode] at hb
  rcases List.mem_flatMap.1 hb with ⟨c, _, hbc⟩
  exact utf8EncodeCh_lt c b hbc

theorem pyUnquote_pyQuote (s : String) : pyUnquote (pyQuote s) = some s := by
  rw [pyUnquote]
  have hdata : (pyQuote s).data = quoteBytes (utf8Encode s) := rfl
  rw [hdata, unquote_quoteBytes _ (utf8Encode_lt s), utf8Encode, utf8Decode_flatMap]
  rfl

theorem stringExt {a b : String} (h : a.data = b.data) : a = b := by
  cases a
  cases b
  exact congrArg String.mk h

theorem rel_file_drop (fp : String) : (rel_file fp).drop 6 = pyQuote fp := by
  apply stringExt
  rw [String.data_drop, rel_file, String.data_append]
  rfl

/-- Claim C6: the public reference is exactly the absolute path
percent-encoded behind `/file=`; dropping the six-character prefix and
percent-decoding recovers the identical path; and on the compatibility route
the third response element is that reference for the downloaded file, whose
decoded form equals the first element's `path` field. -/
theorem rel_file_roundtrip (fp : String) (dl : Downloader) (payload : JVal)
    (u fp2 title : String) :
    rel_file fp = "/file=" ++ pyQuote fp ∧
    (rel_file fp).drop 6 = pyQuote fp ∧
    pyUnquote ((rel_file fp).drop 6) = some fp ∧
    (gradioUrlField payload = .str u → pyStrip u ≠ "" → dl (pyStrip u) = .ok (fp2, title) →
      (download_gradio dl payload).body = gradioOkBody fp2 title ∧
      (rel_file fp2).drop 6 = pyQuote fp2 ∧
      pyUnquote ((rel_file fp2).drop 6) = some fp2) := by
  refine ⟨rfl, rel_file_drop fp, ?_, ?_⟩
  · rw [rel_file_drop fp]
    exact pyUnquote_pyQuote fp
  · intro hg hu hdl
    refine ⟨?_, rel_file_drop fp2, ?_⟩
    · simp [download_gradio, hg, gradioTail, hu, hdl]
    · rw [rel_file_drop fp2]
      exact pyUnquote_pyQuote fp2

/-- Witness for C6: a concrete path with a space roundtrips through the
`/file=` reference, and the compatibility route's third element matches the
descriptor's path. -/
theorem rel_file_roundtrip_witness :
    pyUnquote ((rel_file "/tmp/youtube_downloads/v x.mp4").drop 6) =
        some "/tmp/youtube_downloads/v x.mp4" ∧
    (download_gradio dlFixed (.obj [("url", .str "u")])).body =
        gradioOkBody "/tmp/youtube_downloads/v x.mp4" "V" :=
  ⟨(rel_file_roundtrip "/tmp/youtube_downloads/v x.mp4" dlFixed (.obj [("url", .str "u")])
      "u" "/tmp/youtube_downloads/v x.mp4" "V").2.2.1,
   ((rel_file_roundtrip "/tmp/youtube_downloads/v x.mp4" dlFixed (.obj [("url", .str "u")])
      "u" "/tmp/youtube_downloads/v x.mp4" "V").2.2.2 rfl (by decide) rfl).1⟩
end YtDownldr
